import Mathlib

/-!
Shallow embedding of the task-analytics dashboard core (src/App.tsx).

The core consists of three pieces, embedded here from the source:
* `parseJapaneseDateLog` — the date parser (`parseJapaneseDate`, App.tsx 34-46);
* `rowToTask` / `parseCSVModel` — the CSV row ingester (`parseCSV`, App.tsx 48-69);
* `stepTask` / `passStats` / `analyzeCall` — the streak analyzer
  (`analyzeTaskData`, App.tsx 71-108), together with the date-window filter
  effect (`useEffect`, App.tsx 110-120) as `applyWindow` / `runFilterEffect`.

JavaScript runtime values are embedded as follows:
* a JS `Date` object is its time value: `JSDate := Option Int`, where `none`
  is an Invalid Date (NaN time value) and `some t` a finite millisecond
  timestamp; relational comparison on dates (`jsLe`) is false whenever either
  side is NaN, matching JS `<=` / `>=` on NaN;
* `undefined`-able strings (e.g. `row[i]` past the end, `row[-1]`) are
  `Option String`, `none` standing for `undefined`;
* the runtime's `new Date(year, month, day)` constructor is `mkDate`,
  implementing ECMA-262 MakeDay/MakeDate/TimeClip over an epoch day count
  (`daysFromCivil`, the standard era/year-of-era formulation), including the
  rule that a year argument between 0 and 99 is replaced by 1900 + year, with
  the host time zone taken to be UTC;
* the runtime's `new Date(string)` parser is `jsDateFromString`, modelling the
  ECMA-262 date-time string format in the `YYYY-MM-DD` form that the date
  inputs of this app produce, and returning an Invalid Date on anything else
  (as the runtime does for unparseable strings).

Exceptions are embedded with `Except`: an operation that can throw at runtime
returns `Except String _`, and a thrown exception aborts the enclosing call,
exactly as an uncaught JS exception aborts the Papa.parse callback.
-/

namespace TaskDash

/-- A JS `Date`'s time value: `none` is an Invalid Date (NaN). -/
abbrev JSDate := Option Int

/-- JS `a <= b` on two dates: numeric comparison of time values, false when
either is NaN. -/
def jsLe (a b : JSDate) : Bool :=
  match a, b with
  | some x, some y => decide (x ≤ y)
  | _, _ => false

/-- Proleptic Gregorian leap-year test (as in ECMA-262 DaysInYear). -/
def isLeap (y : Int) : Bool :=
  (y % 4 == 0 && !(y % 100 == 0)) || y % 400 == 0

/-- Number of leap years in the range [1, y-1] (textbook Gregorian count). -/
def leapsBefore (y : Int) : Int :=
  (y - 1) / 4 - (y - 1) / 100 + (y - 1) / 400

/-- Days in the given year strictly before month `m` (1-indexed), textbook
table plus a leap-day correction from March on. -/
def monthOffset (y m : Int) : Int :=
  (if m = 1 then 0 else if m = 2 then 31 else if m = 3 then 59
   else if m = 4 then 90 else if m = 5 then 120 else if m = 6 then 151
   else if m = 7 then 181 else if m = 8 then 212 else if m = 9 then 243
   else if m = 10 then 273 else if m = 11 then 304 else 334)
  + (if 3 ≤ m ∧ isLeap y then 1 else 0)

/-- Day number (days since 1970-01-01) of the calendar date `y-m-d`, by the
textbook count: 365 days per elapsed year, one extra day per elapsed leap
year, days before the month, day of month. This is the specification-side
meaning of "calendar date". -/
def civilDays (y m d : Int) : Int :=
  365 * (y - 1970) + (leapsBefore y - leapsBefore 1970) + monthOffset y m + d - 1

/-- Day number of `y-m-d` (month 1..12) in the era / year-of-era formulation
used to model the runtime's date arithmetic. -/
def daysFromCivil (y m d : Int) : Int :=
  let yy := if m ≤ 2 then y - 1 else y
  let era := yy / 400
  let yoe := yy % 400
  let mp := (m + 9) % 12
  let doy := (153 * mp + 2) / 5 + d - 1
  let doe := yoe * 365 + yoe / 4 - yoe / 100 + doy
  era * 146097 + doe - 719468

/-- ECMA-262 MakeDay: month is 0-based and may be arbitrary (overflow is
normalised into the year), the day is added as an offset. -/
def jsMakeDay (y m d : Int) : Int :=
  daysFromCivil (y + m / 12) (m % 12 + 1) 1 + (d - 1)

/-- ECMA-262 TimeClip: time values beyond ±8.64e15 ms become NaN. -/
def jsTimeClip (t : Int) : JSDate :=
  if t < -8640000000000000 ∨ 8640000000000000 < t then none else some t

/-- The runtime's `new Date(year, month, day)` (host zone taken as UTC):
a year argument in 0..99 is replaced by 1900 + year, then MakeDay/TimeClip. -/
def mkDate (y m d : Int) : JSDate :=
  let yr := if 0 ≤ y ∧ y ≤ 99 then 1900 + y else y
  jsTimeClip (86400000 * jsMakeDay yr m d)

/-- Numeric value of a digit string (the effect of JS `Number` on the digit
groups captured by the regex). -/
def natOfDigits (cs : List Char) : Nat :=
  cs.foldl (fun a c => 10 * a + (c.toNat - 48)) 0

/-- Days in month `m` of year `y` (months 1..12). -/
def daysInMonth (y m : Int) : Int :=
  if m = 2 then (if isLeap y then 29 else 28)
  else if m = 4 ∨ m = 6 ∨ m = 9 ∨ m = 11 then 30 else 31

/-- The runtime's `new Date(string)` parser, modelled on the ECMA-262
date-time string format in the `YYYY-MM-DD` form produced by this app's date
inputs (UTC midnight); any other string yields an Invalid Date, as the
runtime yields for unparseable strings. -/
def jsDateFromString (s : String) : JSDate :=
  match s.toList with
  | [y1, y2, y3, y4, h1, m1, m2, h2, d1, d2] =>
    if y1.isDigit && y2.isDigit && y3.isDigit && y4.isDigit && h1 == '-' &&
       m1.isDigit && m2.isDigit && h2 == '-' && d1.isDigit && d2.isDigit then
      let y : Int := natOfDigits [y1, y2, y3, y4]
      let m : Int := natOfDigits [m1, m2]
      let d : Int := natOfDigits [d1, d2]
      if 1 ≤ m ∧ m ≤ 12 ∧ 1 ≤ d ∧ d ≤ daysInMonth y m then
        some (86400000 * daysFromCivil y m d)
      else none
    else none
  | _ => none

/-- One attempt of the regex `(\d+)年(\d+)月(\d+)日` anchored at the head of
the character list: each `\d+` is a maximal nonempty digit run (greedy; no
shorter run can be followed by the required literal, which is not a digit). -/
def matchJapaneseAt (cs : List Char) : Option (Nat × Nat × Nat) :=
  let (ds1, rest1) := cs.span (fun c => c.isDigit)
  if ds1.isEmpty then none else
  match rest1 with
  | '年' :: rest2 =>
    let (ds2, rest3) := rest2.span (fun c => c.isDigit)
    if ds2.isEmpty then none else
    match rest3 with
    | '月' :: rest4 =>
      let (ds3, rest5) := rest4.span (fun c => c.isDigit)
      if ds3.isEmpty then none else
      match rest5 with
      | '日' :: _ => some (natOfDigits ds1, natOfDigits ds2, natOfDigits ds3)
      | _ => none
    | _ => none
  | _ => none

/-- Unanchored regex search: try each start position left to right. -/
def matchJapaneseList : List Char → Option (Nat × Nat × Nat)
  | [] => none
  | c :: rest => (matchJapaneseAt (c :: rest)) <|> matchJapaneseList rest

/-- `dateString.match(/(\d+)年(\d+)月(\d+)日/)`, returning the three numeral
groups on success. -/
def matchJapanese (s : String) : Option (Nat × Nat × Nat) :=
  matchJapaneseList s.toList

/-- `new Date()` — the current wall clock, passed in explicitly as `now`. -/
def jsNow (now : Int) : JSDate := some now

/-- `parseJapaneseDate` (App.tsx 34-46), with its `console.error` diagnostic
as a Boolean flag. The argument is `Option String` because the call sites can
hand it an `undefined` field (`task.due` of a malformed row): on a string,
`String.prototype.match` and `new Date(...)` never throw, so the try block
runs to completion; only an `undefined` argument throws (TypeError on
`.match`), landing in the catch, which logs and returns `new Date()`. -/
def parseJapaneseDateLog (now : Int) (s : Option String) : JSDate × Bool :=
  match s with
  | none => (jsNow now, true)
  | some str =>
    match matchJapanese str with
    | some (y, m, d) => (mkDate (y : Int) ((m : Int) - 1) (d : Int), false)
    | none => (jsDateFromString str, false)

/-- The date value produced by `parseJapaneseDate`. -/
def parseDue (now : Int) (s : Option String) : JSDate :=
  (parseJapaneseDateLog now s).1

/-- The `Task` record (App.tsx 6-13) as built by `parseCSV`: the four cell
fields may be `undefined` when the column is missing or the row is short. -/
structure Task where
  status : Option String
  taskName : Option String
  assignee : Option String
  due : Option String
  user : String
  userName : Option String
deriving DecidableEq, Repr

/-- The `UserStats` record (App.tsx 15-23). The streak-span fields are
`Option JSDate`: `none` is `null`, `some d` a `Date` object (which is truthy
even when Invalid). -/
structure UserStats where
  user : String
  currentStreak : Nat
  longestStreak : Nat
  totalTasks : Nat
  completedTasks : Nat
  currentStreakStart : Option JSDate
  currentStreakEnd : Option JSDate
deriving DecidableEq, Repr

/-- The fresh per-user aggregate (App.tsx 76-84). -/
def initStats (u : String) : UserStats :=
  { user := u, currentStreak := 0, longestStreak := 0, totalTasks := 0,
    completedTasks := 0, currentStreakStart := none, currentStreakEnd := none }

/-- The per-record update of one user's aggregate (App.tsx 87-104):
`totalTasks` always increments; `Done` advances the streak machine (the
start date is kept when the field is truthy, i.e. non-null); `Archived` hard
resets it; any other status leaves it unchanged. -/
def updateStats (now : Int) (t : Task) (s : UserStats) : UserStats :=
  let s1 := { s with totalTasks := s.totalTasks + 1 }
  if t.status = some "Done" then
    let cs := s1.currentStreak + 1
    { s1 with
      completedTasks := s1.completedTasks + 1
      currentStreak := cs
      longestStreak := if s1.longestStreak < cs then cs else s1.longestStreak
      currentStreakStart :=
        if s1.currentStreakStart.isSome then s1.currentStreakStart
        else some (parseDue now t.due)
      currentStreakEnd := some (parseDue now t.due) }
  else if t.status = some "Archived" then
    { s1 with currentStreak := 0, currentStreakStart := none, currentStreakEnd := none }
  else s1

/-- One step of the analyzer's forward pass over the insertion-ordered map
(`userStatsMap`, App.tsx 72-105): create the entry on first sight, then
update it in place. -/
def stepTask (now : Int) (m : List (String × UserStats)) (t : Task) :
    List (String × UserStats) :=
  match m.lookup t.user with
  | some _ => m.map (fun kv => if kv.1 = t.user then (kv.1, updateStats now t kv.2) else kv)
  | none => m ++ [(t.user, updateStats now t (initStats t.user))]

/-- The analyzer's pass over a record list, as the insertion-ordered map. -/
def passMap (now : Int) (ts : List Task) : List (String × UserStats) :=
  ts.foldl (stepTask now) []

/-- `Array.from(userStatsMap.values())` after a pass over `ts`. -/
def passStats (now : Int) (ts : List Task) : List UserStats :=
  (passMap now ts).map Prod.snd

/-- The sort comparator `(a, b) => parse(a.due).getTime() - parse(b.due).getTime()`
as a Boolean "may come first": nonpositive difference, with any NaN operand
giving 0 (ECMA-262 SortCompare turns a NaN comparator result into +0), so a
NaN-dated record compares equal either way. -/
def sortLe (now : Int) (a b : Task) : Bool :=
  match parseDue now a.due, parseDue now b.due with
  | some x, some y => decide (x ≤ y)
  | _, _ => true

/-- `filteredTasks.sort(...)` (App.tsx 74): a stable ascending sort by parsed
due date (ECMA-262 requires sort stability; with the NaN-equal comparator the
residual order is implementation-defined, and this deterministic stable sort
is the model's choice). -/
def sortByDue (now : Int) (ts : List Task) : List Task :=
  List.insertionSort (fun a b => sortLe now a b = true) ts

/-- `analyzeTaskData` (App.tsx 71-108): the returned statistics together with
the post-call content of the caller's array, which the in-place `.sort`
leaves reordered. -/
def analyzeCall (now : Int) (ts : List Task) : List UserStats × List Task :=
  (passStats now (sortByDue now ts), sortByDue now ts)

/-- `startDate ? new Date(startDate) : new Date(0)` (App.tsx 114): an empty
string is falsy, so an open start bound becomes the epoch. -/
def effStart (sd : String) : JSDate :=
  if sd = "" then some 0 else jsDateFromString sd

/-- `endDate ? new Date(endDate) : new Date(8640000000000000)` (App.tsx 115):
an open end bound becomes the maximum representable time value. -/
def effEnd (ed : String) : JSDate :=
  if ed = "" then some 8640000000000000 else jsDateFromString ed

/-- The epoch date `new Date(0)`. -/
def epochDate : JSDate := some 0

/-- The maximum representable date. -/
def maxJSDate : JSDate := some 8640000000000000

/-- The minimum representable date. -/
def minJSDate : JSDate := some (-8640000000000000)

/-- The window filter (App.tsx 112-117): keep a record when
`start <= parsedDue` and `parsedDue <= end`. -/
def applyWindow (now : Int) (sd ed : String) (ts : List Task) : List Task :=
  ts.filter (fun t =>
    jsLe (effStart sd) (parseDue now t.due) && jsLe (parseDue now t.due) (effEnd ed))

/-- The component state the effect touches: records, displayed statistics and
the two window inputs. -/
structure AppState where
  tasks : List Task
  userStats : List UserStats
  startDate : String
  endDate : String

/-- The `useEffect` body (App.tsx 110-120): when there are records, filter by
the window and replace the displayed statistics with a fresh analysis. The
in-place sort inside `analyzeTaskData` mutates only the temporary filtered
array, so `tasks` is untouched. -/
def runFilterEffect (now : Int) (s : AppState) : AppState :=
  if 0 < s.tasks.length then
    { s with userStats := (analyzeCall now (applyWindow now s.startDate s.endDate s.tasks)).1 }
  else s

/-- JS `String.prototype.trim`: strip whitespace from both ends. -/
def jsTrim (s : String) : String :=
  String.mk ((((s.toList.dropWhile Char.isWhitespace).reverse).dropWhile
    Char.isWhitespace).reverse)

/-- JS `taskName.split(':')[0]`: the (possibly whole) segment before the
first colon. -/
def jsSplitHead (s : String) : String :=
  String.mk (s.toList.takeWhile (fun c => c ≠ ':'))

/-- JS `String.prototype.toLowerCase`, restricted to the ASCII mapping (the
only case-insensitive comparison in the source is against "user_name"). -/
def jsToLower (s : String) : String :=
  String.mk (s.toList.map Char.toLower)

/-- `row[headers.indexOf(name)]`: `indexOf` is `-1` when the header is
absent, and indexing at `-1` (or past the row's end) gives `undefined`. -/
def cellFor (headers row : List String) (name : String) : Option String :=
  (headers.findIdx? (fun h => h = name)).bind (fun i => row.get? i)

/-- `row[userNameIndex]` guarded by `userNameIndex !== -1`: the value of the
optional user-name cell, `none` when the column is absent or the row short. -/
def userNameCell (headers row : List String) : Option String :=
  (headers.findIdx? (fun h => jsToLower h = "user_name")).bind (fun i => row.get? i)

/-- `taskName.split(':')[0].trim()`: throws a TypeError when `taskName` is
`undefined` (the "Task name" column is missing). -/
def fallbackUser : Option String → Except String String
  | none => Except.error "TypeError: undefined has no method split"
  | some tn => Except.ok (jsTrim (jsSplitHead tn))

/-- One row of the `parseCSV` mapping (App.tsx 53-63). The entity key is the
user-name cell when present and truthy (a nonempty string), otherwise the
task name up to the first colon, trimmed — the latter throwing when the task
name itself is `undefined`. -/
def rowToTask (headers row : List String) : Except String Task :=
  let tn := cellFor headers row "Task name"
  let userE : Except String String :=
    match userNameCell headers row with
    | some c => if c = "" then fallbackUser tn else Except.ok c
    | none => fallbackUser tn
  match userE with
  | Except.error e => Except.error e
  | Except.ok u =>
    Except.ok
      { status := cellFor headers row "Status"
        taskName := tn
        assignee := cellFor headers row "Assignee"
        due := cellFor headers row "Due"
        user := u
        userName := userNameCell headers row }

/-- `parseCSV`'s complete-callback over a parsed grid (App.tsx 50-65): row 0
is the header row, the rest are mapped to tasks; an exception in any row
aborts the whole callback with no result. -/
def parseCSVModel (grid : List (List String)) : Except String (List Task) :=
  grid.tail.mapM (rowToTask (grid.headD []))

/-- The entity-key derivation as the specification words it: if the optional
user-name column is present and that row's cell is non-empty, the cell
verbatim; otherwise the substring of the task name before the first colon
with surrounding whitespace trimmed (undefined when the task name is
absent). -/
def entityKeySpec (headers row : List String) : Option String :=
  match userNameCell headers row with
  | some c =>
    if c ≠ "" then some c
    else (cellFor headers row "Task name").map (fun tn => jsTrim (jsSplitHead tn))
  | none => (cellFor headers row "Task name").map (fun tn => jsTrim (jsSplitHead tn))

/-- The per-entity invariant of the specification's data model: completions
never exceed the total, the current streak never exceeds the longest, and a
zero current streak has no streak-span dates. -/
def invStats (s : UserStats) : Prop :=
  s.completedTasks ≤ s.totalTasks ∧ s.currentStreak ≤ s.longestStreak ∧
    (s.currentStreak = 0 → s.currentStreakStart = none ∧ s.currentStreakEnd = none)

/-! ### Concrete records used by the example claims -/

/-- Entity "A", due 2024-01-01, status Done. -/
def taskA1 : Task := ⟨some "Done", some "t1", some "a", some "2024年1月1日", "A", none⟩

/-- Entity "A", due 2024-01-02, status Done. -/
def taskA2 : Task := ⟨some "Done", some "t2", some "a", some "2024年1月2日", "A", none⟩

/-- Entity "A", due 2024-01-03, status Archived. -/
def taskA3 : Task := ⟨some "Archived", some "t3", some "a", some "2024年1月3日", "A", none⟩

/-- Entity "A", due 2024-01-04, status Done. -/
def taskA4 : Task := ⟨some "Done", some "t4", some "a", some "2024年1月4日", "A", none⟩

/-- Entity "A", due 1969-12-31 (before the epoch), status Done. -/
def taskPre1970 : Task := ⟨some "Done", some "t", some "a", some "1969年12月31日", "A", none⟩

/-- A record whose due string matches neither date format. -/
def taskGarbage : Task := ⟨some "Done", some "t", some "a", some "garbage", "G", none⟩

/-- C1: for entity "A" with records in ascending due-date order carrying
statuses [Done, Done, Archived, Done], the analyzer returns longestStreak 2,
currentStreak 1, totalTasks 4 and completedTasks 3 — Done advances the streak
machine, Archived hard-resets it, and every record counts toward the total. -/
theorem C1_streak_example :
    (analyzeCall 0 [taskA1, taskA2, taskA3, taskA4]).1.map
      (fun s => (s.user, s.longestStreak, s.currentStreak, s.totalTasks, s.completedTasks)) =
      [("A", 2, 1, 4, 3)] := by
  decide

/-- C4 counterexample: `analyzeTaskData` sorts the caller's array in place
(App.tsx 74), so after a call on two records in descending due order the
caller's sequence is no longer in its original order — the claim that the
elements keep their relative order is false. -/
theorem C4_inplace_sort_cex :
    (analyzeCall 0 [taskA2, taskA1]).2 ≠ [taskA2, taskA1] := by
  decide

/-- C4 amended: the returned statistics are a pure function of the inputs and
the call neither adds nor removes records — the post-call array is a
permutation of the input (sorted ascending by parsed due date) — but the
relative order of the caller's records is not preserved. -/
theorem C4_records_permuted (now : Int) (ts : List Task) :
    ((analyzeCall now ts).2).Perm ts := by
  simpa [analyzeCall, sortByDue] using
    List.perm_insertionSort (fun a b => sortLe now a b = true) ts

/-- C3 counterexample: with both window bounds open, a record whose parsed
due date (1969-12-31, before the epoch) lies between the minimum and maximum
representable dates is nevertheless dropped, because an open start bound is
`new Date(0)` — the epoch — not the minimum representable date. -/
theorem C3_open_start_epoch_cex :
    applyWindow 0 "" "" [taskPre1970] = [] ∧
    jsLe minJSDate (parseDue 0 taskPre1970.due) = true ∧
    jsLe (parseDue 0 taskPre1970.due) maxJSDate = true := by
  decide

/-- C3 amended: an open start bound defaults to the epoch (`new Date(0)`),
not the minimum representable date; an open end bound defaults to the maximum
representable date; and a record is retained iff it is in the input and its
parsed due date compares within [start, end] inclusive (a NaN date comparing
false against both bounds). -/
theorem C3_window_semantics (now : Int) (sd ed : String) (ts : List Task) (t : Task) :
    effStart "" = epochDate ∧ effEnd "" = maxJSDate ∧
    (t ∈ applyWindow now sd ed ts ↔
      t ∈ ts ∧ jsLe (effStart sd) (parseDue now t.due) = true ∧
        jsLe (parseDue now t.due) (effEnd ed) = true) := by
  refine ⟨rfl, rfl, ?_⟩
  simp [applyWindow, List.mem_filter, Bool.and_eq_true]

/-- C10: a record whose due string parses to an invalid date (NaN time value)
is excluded by the window filter for every window — in particular with both
bounds open — because NaN compares false against both bounds; such a record
therefore contributes to no entity's statistics along the filtering path. -/
theorem C10_invalid_due_excluded (now : Int) (sd ed : String) (ts : List Task) (t : Task)
    (h : parseDue now t.due = none) : t ∉ applyWindow now sd ed ts := by
  intro hmem
  have h2 := (List.mem_filter.mp hmem).2
  rw [Bool.and_eq_true] at h2
  rw [h] at h2
  cases hs : effStart sd <;> rw [hs] at h2 <;> simp [jsLe] at h2

/-- C10 witness: the record with due string "garbage" parses to an invalid
date and is dropped by the open-bounds window filter. -/
theorem C10_invalid_due_excluded_witness :
    parseDue 0 taskGarbage.due = none ∧ taskGarbage ∉ applyWindow 0 "" "" [taskGarbage] :=
  ⟨by decide, C10_invalid_due_excluded 0 "" "" [taskGarbage] taskGarbage (by decide)⟩

/-- C5 (code behavior at the failing input): with the required "Status"
column absent from the header row, ingestion does not fail — it succeeds and
silently produces a record whose status is `undefined`, contradicting the
required fail-with-descriptive-error contract. -/
theorem C5_missing_status_no_error :
    parseCSVModel [["Task name", "Assignee", "Due"],
                   ["Design: write spec", "bob", "2024年1月1日"]] =
      Except.ok [{ status := none, taskName := some "Design: write spec",
                   assignee := some "bob", due := some "2024年1月1日",
                   user := "Design", userName := none }] := by
  rfl

/-- A fresh aggregate satisfies the per-entity invariant. -/
lemma invStats_initStats (u : String) : invStats (initStats u) := by
  simp [invStats, initStats]

/-- The per-record update preserves the per-entity invariant. -/
lemma invStats_updateStats (now : Int) (t : Task) (s : UserStats) (h : invStats s) :
    invStats (updateStats now t s) := by
  obtain ⟨h1, h2, h3⟩ := h
  unfold updateStats
  split_ifs with hd ha
  · refine ⟨by dsimp only; omega, ?_, ?_⟩
    · dsimp only
      split_ifs with hl <;> omega
    · intro hz
      exact absurd hz (Nat.succ_ne_zero _)
  · exact ⟨by dsimp only; omega, by dsimp only; omega, fun _ => ⟨rfl, rfl⟩⟩
  · exact ⟨by dsimp only; omega, h2, h3⟩

/-- One analyzer step preserves the invariant across the whole map. -/
lemma invStats_stepTask (now : Int) (t : Task) (m : List (String × UserStats))
    (h : ∀ kv ∈ m, invStats kv.2) : ∀ kv ∈ stepTask now m t, invStats kv.2 := by
  intro kv hkv
  unfold stepTask at hkv
  cases hl : m.lookup t.user with
  | some s0 =>
    rw [hl] at hkv
    obtain ⟨kv0, hkv0, rfl⟩ := List.mem_map.mp hkv
    by_cases he : kv0.1 = t.user
    · rw [if_pos he]
      exact invStats_updateStats now t kv0.2 (h kv0 hkv0)
    · rw [if_neg he]
      exact h kv0 hkv0
  | none =>
    rw [hl] at hkv
    rcases List.mem_append.mp hkv with hin | hnew
    · exact h kv hin
    · have : kv = (t.user, updateStats now t (initStats t.user)) := by
        simpa using hnew
      rw [this]
      exact invStats_updateStats now t (initStats t.user) (invStats_initStats t.user)

/-- The analyzer's fold preserves the invariant from any starting map. -/
lemma invStats_foldl (now : Int) (ts : List Task) :
    ∀ m, (∀ kv ∈ m, invStats kv.2) →
      ∀ kv ∈ ts.foldl (stepTask now) m, invStats kv.2 := by
  induction ts with
  | nil => intro m hm; simpa using hm
  | cons t ts ih =>
    intro m hm kv hkv
    exact ih (stepTask now m t) (invStats_stepTask now t m hm) kv hkv

/-- C2: after processing any prefix of the analyzer's chronological pass,
every per-entity aggregate has completedTasks ≤ totalTasks and
currentStreak ≤ longestStreak, and a zero current streak carries no
streak-span dates. -/
theorem C2_prefix_invariants (now : Int) (ts p : List Task)
    (_hp : p <+: sortByDue now ts) :
    ∀ s ∈ passStats now p,
      s.completedTasks ≤ s.totalTasks ∧ s.currentStreak ≤ s.longestStreak ∧
        (s.currentStreak = 0 →
          s.currentStreakStart = none ∧ s.currentStreakEnd = none) := by
  intro s hs
  obtain ⟨kv, hkv, rfl⟩ := List.mem_map.mp hs
  exact invStats_foldl now p [] (by simp) kv hkv

/-- The aggregate for entity "A" after the pass has seen `taskA1` alone. -/
def statsA1 : UserStats :=
  { user := "A", currentStreak := 1, longestStreak := 1, totalTasks := 1,
    completedTasks := 1, currentStreakStart := some (some 1704067200000),
    currentStreakEnd := some (some 1704067200000) }

/-- C2 witness: the one-record prefix of a concrete two-record pass yields an
aggregate satisfying all three invariant clauses. -/
theorem C2_prefix_invariants_witness :
    ([taskA1] <+: sortByDue 0 [taskA1, taskA2]) ∧ statsA1 ∈ passStats 0 [taskA1] ∧
    (statsA1.completedTasks ≤ statsA1.totalTasks ∧
      statsA1.currentStreak ≤ statsA1.longestStreak ∧
      (statsA1.currentStreak = 0 →
        statsA1.currentStreakStart = none ∧ statsA1.currentStreakEnd = none)) :=
  ⟨⟨[taskA2], by decide⟩, by decide,
    C2_prefix_invariants 0 [taskA1, taskA2] [taskA1] ⟨[taskA2], by decide⟩
      statsA1 (by decide)⟩

/-- C6 counterexample: on the string "not a date" — which matches neither the
Japanese pattern nor a generic date format — the parser returns an Invalid
Date, emits no diagnostic, and does not return the current wall-clock date
(here 1700000000000 ms): the claimed diagnostic-plus-current-date fallback
does not happen for string inputs, and the caller receives an unusable date. -/
theorem C6_no_current_date_fallback_cex :
    (parseJapaneseDateLog 1700000000000 (some "not a date")).1 = none ∧
    (parseJapaneseDateLog 1700000000000 (some "not a date")).2 = false ∧
    (parseJapaneseDateLog 1700000000000 (some "not a date")).1 ≠ jsNow 1700000000000 := by
  decide

/-- C6 amended: for every defined string input the parser indeed never
propagates a failure (it is total), but it emits no diagnostic, and when the
string does not match the Japanese pattern the result is whatever the generic
date parse gives — an Invalid Date for unparseable strings, never the current
wall-clock date. The catch branch (diagnostic plus current date) is reached
only for an `undefined` input. -/
theorem C6_string_input_behavior (now : Int) (s : String) :
    (parseJapaneseDateLog now (some s)).2 = false ∧
    (matchJapanese s = none →
      (parseJapaneseDateLog now (some s)).1 = jsDateFromString s) := by
  constructor
  · simp only [parseJapaneseDateLog]
    cases hm : matchJapanese s with
    | none => rfl
    | some v => obtain ⟨y, m, d⟩ := v; rfl
  · intro h
    simp only [parseJapaneseDateLog, h]

/-- C6 witness: at the concrete unparseable string "abc" the parser logs
nothing and returns the generic-parse result (an Invalid Date). -/
theorem C6_string_input_behavior_witness :
    (parseJapaneseDateLog 5 (some "abc")).2 = false ∧
    (parseJapaneseDateLog 5 (some "abc")).1 = jsDateFromString "abc" :=
  ⟨(C6_string_input_behavior 5 "abc").1, (C6_string_input_behavior 5 "abc").2 (by decide)⟩

/-- C7: every successfully ingested row's entity key agrees with the
specification's derivation — the user-name cell verbatim when the optional
column exists and the cell is non-empty, otherwise the task name up to the
first colon, trimmed. -/
theorem C7_entity_key (headers row : List String) (t : Task)
    (h : rowToTask headers row = Except.ok t) :
    some t.user = entityKeySpec headers row := by
  unfold rowToTask at h
  unfold entityKeySpec
  cases hc : userNameCell headers row with
  | none =>
    rw [hc] at h
    cases ht : cellFor headers row "Task name" with
    | none => rw [ht] at h; exact absurd h (by simp [fallbackUser])
    | some tn =>
      rw [ht] at h
      simp only [fallbackUser, Except.ok.injEq] at h
      rw [← h]
      rfl
  | some c =>
    rw [hc] at h
    dsimp only at h
    by_cases hce : c = ""
    · rw [if_pos hce] at h
      cases ht : cellFor headers row "Task name" with
      | none => rw [ht] at h; exact absurd h (by simp [fallbackUser])
      | some tn =>
        rw [ht] at h
        simp only [fallbackUser, Except.ok.injEq] at h
        rw [← h]
        dsimp only
        rw [if_neg (by simp [hce])]
        rfl
    · rw [if_neg hce] at h
      dsimp only at h
      simp only [Except.ok.injEq] at h
      rw [← h]
      dsimp only
      rw [if_pos hce]

/-- C7 witness: a row with an empty user_name cell and task name
"Design: write spec" ingests with entity key "Design", matching the
specification's derivation. -/
theorem C7_entity_key_witness :
    some ((rowToTask ["Status", "Task name", "Assignee", "Due", "user_name"]
        ["Done", "Design: write spec", "bob", "2024年1月1日", ""]).toOption.elim "" Task.user) =
      entityKeySpec ["Status", "Task name", "Assignee", "Due", "user_name"]
        ["Done", "Design: write spec", "bob", "2024年1月1日", ""] ∧
    entityKeySpec ["Status", "Task name", "Assignee", "Due", "user_name"]
        ["Done", "Design: write spec", "bob", "2024年1月1日", ""] = some "Design" := by
  constructor
  · exact C7_entity_key _ _
      { status := some "Done", taskName := some "Design: write spec",
        assignee := some "bob", due := some "2024年1月1日",
        user := "Design", userName := some "" } (by rfl)
  · rfl

/-- C8: re-running the analysis pipeline on unchanged inputs reproduces the
same output — the analyzer is a function of (records, window) with no state
carried between invocations, so applying the recompute effect a second time
to the same records and window bounds leaves the displayed statistics (and
the whole state) unchanged. -/
theorem C8_recompute_idempotent (now : Int) (s : AppState) :
    runFilterEffect now (runFilterEffect now s) = runFilterEffect now s := by
  unfold runFilterEffect
  by_cases h : 0 < s.tasks.length
  · rw [if_pos h, if_pos (by simpa using h)]
  · rw [if_neg h, if_neg h]

/-- The day offset enters the day count linearly. -/
lemma daysFromCivil_shift_day (y m d : Int) :
    daysFromCivil y m 1 + (d - 1) = daysFromCivil y m d := by
  simp only [daysFromCivil]
  split_ifs <;> omega

/-- For months 1..12 the era / year-of-era day count agrees with the textbook
Gregorian day count. -/
lemma daysFromCivil_eq_civilDays (y m d : Int) (h1 : 1 ≤ m) (h2 : m ≤ 12) :
    daysFromCivil y m d = civilDays y m d := by
  interval_cases m <;>
    (simp only [daysFromCivil, civilDays, monthOffset, leapsBefore, isLeap]; norm_num; omega)

/-- No month has more than 31 days. -/
lemma daysInMonth_le (y m : Int) : daysInMonth y m ≤ 31 := by
  unfold daysInMonth
  split_ifs <;> omega

/-- For years 100..270000 the resulting time value is far inside the
representable range, so TimeClip keeps it. -/
lemma daysFromCivil_range (y m d : Int) (_h1 : 1 ≤ m) (_h2 : m ≤ 12) (h3 : 1 ≤ d)
    (h4 : d ≤ 31) (hy1 : 100 ≤ y) (hy2 : y ≤ 270000) :
    -8640000000000000 ≤ 86400000 * daysFromCivil y m d ∧
      86400000 * daysFromCivil y m d ≤ 8640000000000000 := by
  simp only [daysFromCivil]
  split_ifs <;> omega

/-- C9 counterexample: the string "50年1月1日" matches the pattern with
numeral groups (50, 1, 1), but the parser produces the date of calendar
1950-01-01 — not of calendar 50-01-01 — because the runtime constructor
replaces a year argument in 0..99 by 1900 + year. -/
theorem C9_small_year_cex :
    matchJapanese "50年1月1日" = some (50, 1, 1) ∧
    parseDue 0 (some "50年1月1日") = some (86400000 * civilDays 1950 1 1) ∧
    86400000 * civilDays 1950 1 1 ≠ 86400000 * civilDays 50 1 1 := by
  decide

/-- C9 amended: for every date string matching `<year>年<month>月<day>日` the
parser hands (year, month − 1, day) to the runtime date constructor; whenever
the year group is at least 100 (so the 1900-offset rule for years 0..99 does
not fire) and at most 270000 (comfortably inside the representable range),
the month group is 1..12 and the day group is within the month, the resulting
time value is exactly that of calendar date year-month-day (at UTC midnight),
the calendar date's day number being given by the independent textbook
Gregorian count `civilDays`. In particular "2024年3月5日" parses to calendar
date 2024-03-05. -/
theorem C9_japanese_date_value (now : Int) (s : String) (y m d : Nat)
    (hs : matchJapanese s = some (y, m, d))
    (hy1 : 100 ≤ y) (hy2 : y ≤ 270000) (hm1 : 1 ≤ m) (hm2 : m ≤ 12) (hd1 : 1 ≤ d)
    (hd2 : (d : Int) ≤ daysInMonth (y : Int) (m : Int)) :
    parseDue now (some s) =
      some (86400000 * civilDays (y : Int) (m : Int) (d : Int)) := by
  unfold parseDue parseJapaneseDateLog
  dsimp only
  rw [hs]
  dsimp only
  unfold mkDate
  rw [if_neg (by omega)]
  dsimp only
  unfold jsMakeDay
  have e1 : (y : Int) + ((m : Int) - 1) / 12 = (y : Int) := by omega
  have e2 : ((m : Int) - 1) % 12 + 1 = (m : Int) := by omega
  rw [e1, e2, daysFromCivil_shift_day (y : Int) (m : Int) (d : Int)]
  have h31 : (d : Int) ≤ 31 :=
    le_trans hd2 (daysInMonth_le (y : Int) (m : Int))
  have hr := daysFromCivil_range (y : Int) (m : Int) (d : Int)
    (by omega) (by omega) (by omega) h31 (by omega) (by omega)
  unfold jsTimeClip
  rw [if_neg (by omega)]
  rw [daysFromCivil_eq_civilDays (y : Int) (m : Int) (d : Int)
    (by omega) (by omega)]

/-- C9 witness: the example string "2024年3月5日" parses to the time value of
calendar date 2024-03-05, namely 1709596800000 ms. -/
theorem C9_japanese_date_value_witness :
    matchJapanese "2024年3月5日" = some (2024, 3, 5) ∧
    parseDue 0 (some "2024年3月5日") =
      some (86400000 * civilDays ((2024 : Nat) : Int) ((3 : Nat) : Int) ((5 : Nat) : Int)) ∧
    86400000 * civilDays ((2024 : Nat) : Int) ((3 : Nat) : Int) ((5 : Nat) : Int) = 1709596800000 := by
  refine ⟨by decide, ?_, by decide⟩
  exact C9_japanese_date_value 0 "2024年3月5日" 2024 3 5 (by decide) (by omega)
    (by omega) (by omega) (by omega) (by omega) (by decide)

end TaskDash
